import Mathlib

/-!
Verification of the muc_banbot ban reconciliation and enforcement engine.

This file is a shallow embedding of `muc_banbot.py`.  Pure helpers
(`parse_duration`, `human_time`, `bare_jid`) become Lean functions on
strings modelled as lists of characters; the SQLite ban table becomes a
`List BanRec` with `REPLACE INTO` translated to SQLite's actual
delete-then-insert semantics (a NULL primary key never conflicts with
anything, including another NULL); the occupant cache becomes an
insertion-ordered association list, matching Python dict iteration
order; outbound XMPP calls become explicit action traces parametrised
by an oracle classifying each attempt as ok / timeout / rejected
(IqTimeout / IqError in the source).
-/

/-- ASCII lowercasing of one character, modelling Python `str.lower` /
SQLite `LOWER` on the ASCII inputs the bot works with. -/
def lowerChar (c : Char) : Char :=
  match c with
  | 'A' => 'a' | 'B' => 'b' | 'C' => 'c' | 'D' => 'd' | 'E' => 'e'
  | 'F' => 'f' | 'G' => 'g' | 'H' => 'h' | 'I' => 'i' | 'J' => 'j'
  | 'K' => 'k' | 'L' => 'l' | 'M' => 'm' | 'N' => 'n' | 'O' => 'o'
  | 'P' => 'p' | 'Q' => 'q' | 'R' => 'r' | 'S' => 's' | 'T' => 't'
  | 'U' => 'u' | 'V' => 'v' | 'W' => 'w' | 'X' => 'x' | 'Y' => 'y'
  | 'Z' => 'z'
  | c => c

/-- Python `s.lower()` on a whole string. -/
def lowerStr (s : String) : String := String.mk (s.data.map lowerChar)

/-- The part of a character list before the first occurrence of `stop`,
modelling Python `s.split(stop)[0]`. -/
def upToChar (stop : Char) : List Char → List Char
  | [] => []
  | c :: cs => if c = stop then [] else c :: upToChar stop cs

/-- `bare_jid` on a non-empty string: `jid.split("/")[0].lower()`. -/
def bareJid (j : String) : String := String.mk ((upToChar '/' j.data).map lowerChar)

/-- Python `"@" in s`. -/
def hasAtSign (s : String) : Bool := s.data.any (fun c => c = '@')

/-- Python truthiness of an optional string (`None` and `""` are falsy). -/
def truthy : Option String → Bool
  | none => false
  | some s => if s = "" then false else true

/-- `BanBot.bare_jid` including its internal falsiness check:
`jid.split("/")[0].lower() if jid else None`. -/
def pyBareJid : Option String → Option String
  | none => none
  | some j => if j = "" then none else some (bareJid j)

/-- ASCII whitespace stripped by Python `int(...)` around its argument. -/
def isPyWs (c : Char) : Bool :=
  c = ' ' || c = '\t' || c = '\n' || c = '\r' || c = '\x0b' || c = '\x0c'

/-- Leading and trailing whitespace removal, as `int(...)` performs on its
string argument. -/
def stripPyWs (cs : List Char) : List Char :=
  ((cs.dropWhile isPyWs).reverse.dropWhile isPyWs).reverse

/-- Continuation of Python's `digitpart` grammar after a first digit:
further digits, each optionally preceded by a single underscore separator
(an underscore must sit between two digits, so `1_0` parses and `1_`,
`1__0` do not). -/
def pyIntDigitsAux : List Char → Nat → Option Nat
  | [], acc => some acc
  | c :: cs, acc =>
    if c.isDigit then pyIntDigitsAux cs (acc * 10 + (c.toNat - 48))
    else if c = '_' then
      match cs with
      | [] => none
      | c2 :: cs2 =>
        if c2.isDigit then pyIntDigitsAux cs2 (acc * 10 + (c2.toNat - 48)) else none
    else none

/-- Python's `digitpart`: a first digit followed by digits with optional
single underscore separators; the empty list is rejected. -/
def pyIntDigits : List Char → Option Nat
  | [] => none
  | c :: cs => if c.isDigit then pyIntDigitsAux cs (c.toNat - 48) else none

/-- Python `int(s)` on ASCII input: surrounding whitespace is stripped, an
optional sign must sit directly against the digits, and underscores may
separate digits (`int("1_0") = 10`, `int(" 5 ") = 5`). -/
def pyInt (s : String) : Option Int :=
  match stripPyWs s.data with
  | '-' :: rest => (pyIntDigits rest).map (fun n => -(n : Int))
  | '+' :: rest => (pyIntDigits rest).map (fun n => (n : Int))
  | cs => (pyIntDigits cs).map (fun n => (n : Int))

/-- The `units` lookup of `parse_duration`, applied to the lowercased
last character. -/
def unitMult (c : Char) : Option Int :=
  if lowerChar c = 's' then some 1
  else if lowerChar c = 'm' then some 60
  else if lowerChar c = 'h' then some 3600
  else if lowerChar c = 'd' then some 86400
  else none

/-- `parse_duration` from muc_banbot.py; `none` models a raised
`ValueError`. -/
def parse_duration (s : String) : Option Int :=
  if s.length < 2 then none
  else
    match s.data.getLast? with
    | none => none
    | some c =>
      match unitMult c with
      | none => none
      | some mult => (pyInt (String.mk s.data.dropLast)).map (fun v => v * mult)

/-- Seconds component of `human_time`'s divmod cascade. -/
def compS (n : Nat) : Nat := n % 60

/-- Minutes component of `human_time`'s divmod cascade. -/
def compM (n : Nat) : Nat := (n / 60) % 60

/-- Hours component of `human_time`'s divmod cascade. -/
def compH (n : Nat) : Nat := n / 60 / 60 % 24

/-- Days component of `human_time`'s divmod cascade. -/
def compD (n : Nat) : Nat := n / 60 / 60 / 24

/-- The `parts` list built by `human_time` for a positive number of
seconds: each nonzero component rendered, zero components omitted. -/
def humanParts (n : Nat) : List String :=
  (if compD n ≠ 0 then [toString (compD n) ++ "d"] else [])
    ++ (if compH n ≠ 0 then [toString (compH n) ++ "h"] else [])
    ++ (if compM n ≠ 0 then [toString (compM n) ++ "m"] else [])
    ++ (if compS n ≠ 0 then [toString (compS n) ++ "s"] else [])

/-- `human_time` from muc_banbot.py. -/
def human_time (seconds : Int) : String :=
  if seconds ≤ 0 then "permanent"
  else String.intercalate " " (humanParts seconds.toNat)

/-- Claim C9: `parse_duration` raises `ValueError` exactly when the string is
shorter than 2 characters, or its lowercased last character is not one of
s/m/h/d, or the characters before the suffix do not parse as an integer;
otherwise it returns the parsed integer times the suffix multiplier, and a
negative numeric part such as `-5m` is accepted and yields negative seconds. -/
theorem c9_parse_duration_errors (s : String) :
    (s.length < 2 → parse_duration s = none)
    ∧ (∀ c, 2 ≤ s.length → s.data.getLast? = some c → unitMult c = none →
        parse_duration s = none)
    ∧ (∀ c m, 2 ≤ s.length → s.data.getLast? = some c → unitMult c = some m →
        parse_duration s = (pyInt (String.mk s.data.dropLast)).map (fun v => v * m))
    ∧ parse_duration "-5m" = some (-300)
    ∧ parse_duration "1_0m" = some 600
    ∧ parse_duration " 5 m" = some 300 := by
  refine ⟨fun h => by simp [parse_duration, h], ?_, ?_, by decide, by decide, by decide⟩
  · intro c h2 hlast hunit
    simp [parse_duration, Nat.not_lt.mpr h2, Nat.lt_irrefl, hlast, hunit]
  · intro c m h2 hlast hunit
    have hn : ¬ s.length < 2 := by omega
    simp [parse_duration, hn, hlast, hunit]

/-- Witness for C9 at a concrete accepted input. -/
theorem c9_parse_duration_errors_witness :
    parse_duration "10m" = some 600 ∧ (2 ≤ ("10m" : String).length) :=
  ⟨Eq.trans ((c9_parse_duration_errors "10m").2.2.1 'm' 60 (by decide) (by decide) (by decide))
    (by decide), by decide⟩

/-- Claim C10: `human_time` returns "permanent" for every value ≤ 0 (including
0, the clamped remaining time of an expired temporary ban); for every positive
value it returns the space-join of the nonzero d/h/m/s components, the
component list is non-empty, and the weighted sum of the components equals the
input. -/
theorem c10_human_time (z : Int) :
    (z ≤ 0 → human_time z = "permanent")
    ∧ (0 < z →
        human_time z = String.intercalate " " (humanParts z.toNat)
        ∧ humanParts z.toNat ≠ []
        ∧ compD z.toNat * 86400 + compH z.toNat * 3600 + compM z.toNat * 60 + compS z.toNat
            = z.toNat
        ∧ (z.toNat : Int) = z) := by
  constructor
  · intro h; simp [human_time, h]
  · intro h
    refine ⟨by simp [human_time, show ¬ z ≤ 0 by omega], ?_, ?_, ?_⟩
    · intro hnil
      have hz : 0 < z.toNat := by omega
      simp only [humanParts, List.append_eq_nil] at hnil
      have hd : compD z.toNat = 0 := by by_contra hc; simp [hc] at hnil
      have hh : compH z.toNat = 0 := by by_contra hc; simp [hc] at hnil
      have hm : compM z.toNat = 0 := by by_contra hc; simp [hc] at hnil
      have hs : compS z.toNat = 0 := by by_contra hc; simp [hc] at hnil
      simp only [compD, compH, compM, compS] at hd hh hm hs
      omega
    · simp only [compD, compH, compM, compS]; omega
    · omega

/-- Witness for C10 at the documented example input 3661. -/
theorem c10_human_time_witness :
    human_time 3661 = "1h 1m 1s" ∧ human_time (-7) = "permanent" :=
  ⟨Eq.trans ((c10_human_time 3661).2 (by decide)).1 (by decide),
    (c10_human_time (-7)).1 (by decide)⟩

/-- One occupant entry of `self.occupants[room]`: role, affiliation and
optional full JID, as stored by `muc_online`. -/
structure OccInfo where
  role : String
  affiliation : String
  jid : Option String
deriving DecidableEq, Repr

/-- A room's occupant map, in Python dict insertion order. -/
abbrev Occupants := List (String × OccInfo)

/-- The whole `self.occupants` cache: room bare JID to occupant map,
in insertion order. -/
abbrev RoomMap := List (String × Occupants)

/-- One row of the `bans` table (`untilTs` models the `until` column;
0 encodes a permanent ban). -/
structure BanRec where
  jid : Option String
  nick : Option String
  untilTs : Int
  issuer : Option String
  comment : Option String
deriving DecidableEq, Repr

/-- The `bans` table in row order. -/
abbrev BanDb := List BanRec

/-- `affiliation in ("owner", "admin")`. -/
def isAdminAff (a : String) : Bool := a = "owner" || a = "admin"

/-- SQLite `REPLACE INTO bans` with `jid TEXT PRIMARY KEY`: a non-NULL
jid deletes every row with the same jid before inserting; a NULL jid
never conflicts with anything (SQLite primary keys admit NULL and
NULLs are pairwise distinct), so the row is plainly inserted. -/
def replaceInto (db : BanDb) (r : BanRec) : BanDb :=
  match r.jid with
  | some j => (db.filter (fun x => x.jid ≠ some j)) ++ [r]
  | none => db ++ [r]

/-- Inner loop of ban_all's nick-to-JID resolution over one room:
first occupant whose lowercased nick equals the target and whose jid
is truthy. -/
def findJidForNickRoom : Occupants → String → Option String
  | [], _ => none
  | (n, info) :: rest, bn =>
    if lowerStr n = bn ∧ truthy info.jid then info.jid
    else findJidForNickRoom rest bn

/-- ban_all's nick-to-JID resolution over all cached rooms, first match
in iteration order. -/
def findJidForNick : RoomMap → String → Option String
  | [], _ => none
  | (_, occ) :: rest, bn =>
    match findJidForNickRoom occ bn with
    | some j => some j
    | none => findJidForNick rest bn

/-- Inner loop of ban_all's JID-to-nick resolution over one room:
first occupant with truthy jid whose bare JID equals the target. -/
def findNickForJidRoom : Occupants → Option String → Option String
  | [], _ => none
  | (n, info) :: rest, bjb =>
    if truthy info.jid ∧ pyBareJid info.jid = bjb then some (lowerStr n)
    else findNickForJidRoom rest bjb

/-- ban_all's JID-to-nick resolution over all cached rooms. -/
def findNickForJid : RoomMap → Option String → Option String
  | [], _ => none
  | (_, occ) :: rest, bjb =>
    match findNickForJidRoom occ bjb with
    | some n => some n
    | none => findNickForJid rest bjb

/-- The per-occupant match test of ban_all's owner/admin guard:
`(ban_jid_bare and info_jid_bare == ban_jid_bare) or
 (ban_nick and n.lower() == ban_nick)`. -/
def guardMatch (n : String) (info : OccInfo) (bjb bn : Option String) : Bool :=
  (truthy bjb && decide (pyBareJid info.jid = bjb))
    || (truthy bn && decide (some (lowerStr n) = bn))

/-- ban_all's guard loop: some occupant of some cached room (the whole
`self.occupants` dict, admin room included) matches the ban target and
holds owner or admin affiliation. -/
def banGuardHit (rooms : RoomMap) (bjb bn : Option String) : Bool :=
  rooms.any (fun rp => rp.2.any (fun p => guardMatch p.1 p.2 bjb bn && isAdminAff p.2.affiliation))

/-- ban_all's resolved `ban_jid`: the identifier itself when
identity-shaped, otherwise the first JID found for the lowercased nick. -/
def resolveBanJid (rooms : RoomMap) (identifier : String) : Option String :=
  if hasAtSign identifier then some identifier
  else if identifier = "" then none
  else findJidForNick rooms (lowerStr identifier)

/-- ban_all's resolved `ban_nick`: the lowercased identifier when
nickname-shaped, otherwise the first current nick found for the bare JID. -/
def resolveBanNick (rooms : RoomMap) (identifier : String) : Option String :=
  let bj := resolveBanJid rooms identifier
  let bn0 : Option String := if hasAtSign identifier then none else some (lowerStr identifier)
  if truthy bj ∧ ¬ truthy bn0 then
    match findNickForJid rooms (pyBareJid bj) with
    | some n => some n
    | none => bn0
  else bn0

/-- The row ban_all hands to `REPLACE INTO bans`. -/
def banRecordOf (rooms : RoomMap) (identifier : String) (untilTs : Option Int)
    (issuer : String) (comment : Option String) : BanRec :=
  ⟨pyBareJid (resolveBanJid rooms identifier), resolveBanNick rooms identifier,
    untilTs.getD 0, some issuer, comment⟩

/-- ban_all refuses when the guard hits on the resolved target. -/
def banRefused (rooms : RoomMap) (identifier : String) : Bool :=
  banGuardHit rooms (pyBareJid (resolveBanJid rooms identifier)) (resolveBanNick rooms identifier)

/-- Outcome of one `ban_all` call: resulting table, rooms handed to
`apply_ban_to_room` in order, and whether the call was refused. -/
structure BanAllResult where
  db : BanDb
  applied : List String
  refused : Bool
deriving DecidableEq, Repr

/-- `ban_all` from muc_banbot.py, restricted to its effect on the ban
table and the set of per-room enforcement invocations. -/
def ban_all (rooms : RoomMap) (protectedRooms : List String) (identifier : String)
    (untilTs : Option Int) (issuer : String) (comment : Option String) (db : BanDb) :
    BanAllResult :=
  if banRefused rooms identifier then ⟨db, [], true⟩
  else ⟨replaceInto db (banRecordOf rooms identifier untilTs issuer comment),
        protectedRooms, false⟩

/-- The guard as the claim words it (spec side, for comparison): checked
only against occupants of protected rooms. -/
def banGuardHitProtectedOnly (rooms : RoomMap) (protectedRooms : List String)
    (bjb bn : Option String) : Bool :=
  (rooms.filter (fun rp => protectedRooms.contains rp.1)).any
    (fun rp => rp.2.any (fun p => guardMatch p.1 p.2 bjb bn && isAdminAff p.2.affiliation))

/-- Helper: rows surviving a delete-by-jid never match that jid again. -/
theorem filter_ne_filter_eq_nil (db : BanDb) (b : String) :
    (db.filter (fun x => x.jid ≠ some b)).filter (fun r => r.jid = some b) = [] := by
  rw [List.filter_eq_nil_iff]
  intro a ha
  have h2 := (List.mem_filter.mp ha).2
  simp at h2 ⊢
  exact h2

/-- Claim C1 counterexample: issuing the same nickname-only ban twice (target
"ghost", never seen in any room, so no identity resolves and the stored jid is
NULL) leaves two identical records in the ban table, because a NULL primary
key never conflicts in SQLite, so the claimed "exactly one record, last write
wins" fails for nickname-only targets. -/
theorem c1_counterexample :
    (ban_all [] [] "ghost" none "bob" none
        (ban_all [] [] "ghost" none "bob" none []).db).db
      = [⟨none, some "ghost", 0, some "bob", none⟩,
         ⟨none, some "ghost", 0, some "bob", none⟩]
    ∧ ¬ ((ban_all [] [] "ghost" none "bob" none
        (ban_all [] [] "ghost" none "bob" none []).db).db.filter
          (fun r => r.nick = some "ghost")).length = 1 := by
  decide

/-- Claim C1 (amended): `ban_all` is idempotent in the ban store for every
target that resolves to an identity: when the guard does not refuse and the
stored record carries a (necessarily non-NULL) jid, issuing the same ban twice
yields the same table as issuing it once, and exactly one record for that jid
remains; nickname-only targets with no resolvable identity are excluded (their
NULL-jid rows duplicate). -/
theorem c1_amended (rooms : RoomMap) (protectedRooms : List String) (identifier : String)
    (untilTs : Option Int) (issuer : String) (comment : Option String) (db : BanDb)
    (href : banRefused rooms identifier = false) (b : String)
    (hjid : (banRecordOf rooms identifier untilTs issuer comment).jid = some b) :
    (ban_all rooms protectedRooms identifier untilTs issuer comment
        (ban_all rooms protectedRooms identifier untilTs issuer comment db).db).db
      = (ban_all rooms protectedRooms identifier untilTs issuer comment db).db
    ∧ ((ban_all rooms protectedRooms identifier untilTs issuer comment db).db.filter
          (fun r => r.jid = some b)).length = 1 := by
  simp only [ban_all, href, Bool.false_eq_true, if_false]
  constructor
  · simp only [replaceInto, hjid]
    rw [List.filter_append, List.filter_filter]
    have h1 : ∀ l : BanDb, l.filter (fun a => decide (a.jid ≠ some b) && decide (a.jid ≠ some b))
        = l.filter (fun a => a.jid ≠ some b) := by
      intro l; apply List.filter_congr; intro a _; simp
    rw [h1]
    have h2 : [banRecordOf rooms identifier untilTs issuer comment].filter
        (fun x => x.jid ≠ some b) = [] := by
      simp [List.filter, hjid]
    rw [h2, List.append_nil]
  · simp only [replaceInto, hjid]
    rw [List.filter_append, filter_ne_filter_eq_nil, List.nil_append]
    simp [List.filter, hjid]

/-- Witness for the amended C1 at an identity-shaped target. -/
theorem c1_amended_witness :
    (ban_all [] [] "user@x" none "alice" none
        (ban_all [] [] "user@x" none "alice" none []).db).db
      = (ban_all [] [] "user@x" none "alice" none []).db
    ∧ ((ban_all [] [] "user@x" none "alice" none []).db.filter
          (fun r => r.jid = some "user@x")).length = 1 :=
  c1_amended [] [] "user@x" none "alice" none [] (by decide) "user@x" (by decide)

/-- Claim C3 counterexample: with an admin occupant matching the target cached
only for the admin room (not a protected room), the spec-side guard over
protected rooms' occupants does not match, yet `ban_all` refuses: nothing is
persisted and no per-room enforcement is invoked — contradicting "otherwise it
persists the record and then invokes the per-room apply". The code's guard
scans every cached room, the admin room included. -/
theorem c3_counterexample :
    banGuardHitProtectedOnly
        [("admin@conf", [("boss", ⟨"moderator", "admin", some "boss@x/res"⟩)])]
        ["prot@conf"]
        (pyBareJid (resolveBanJid
          [("admin@conf", [("boss", ⟨"moderator", "admin", some "boss@x/res"⟩)])] "boss@x"))
        (resolveBanNick
          [("admin@conf", [("boss", ⟨"moderator", "admin", some "boss@x/res"⟩)])] "boss@x")
      = false
    ∧ (ban_all [("admin@conf", [("boss", ⟨"moderator", "admin", some "boss@x/res"⟩)])]
        ["prot@conf"] "boss@x" none "alice" none []).db = []
    ∧ (ban_all [("admin@conf", [("boss", ⟨"moderator", "admin", some "boss@x/res"⟩)])]
        ["prot@conf"] "boss@x" none "alice" none []).applied = [] := by
  decide

/-- Claim C3 (amended): `ban_all` performs the owner/admin guard against every
room in the occupant cache (the admin room included, not only protected rooms)
before persisting: if the guard matches anywhere in the cache the call returns
with the ban store unchanged and no per-room enforcement; otherwise it
persists the resolved record via REPLACE and invokes the per-room apply for
every protected room. -/
theorem c3_amended (rooms : RoomMap) (protectedRooms : List String) (identifier : String)
    (untilTs : Option Int) (issuer : String) (comment : Option String) (db : BanDb) :
    (banRefused rooms identifier = true →
      ban_all rooms protectedRooms identifier untilTs issuer comment db = ⟨db, [], true⟩)
    ∧ (banRefused rooms identifier = false →
      ban_all rooms protectedRooms identifier untilTs issuer comment db
        = ⟨replaceInto db (banRecordOf rooms identifier untilTs issuer comment),
           protectedRooms, false⟩) := by
  constructor <;> intro h <;> simp [ban_all, h]

/-- Witness for the amended C3: one refused call, one persisted call. -/
theorem c3_amended_witness :
    ban_all [("admin@conf", [("boss", ⟨"moderator", "admin", some "boss@x/res"⟩)])]
        ["p@c"] "boss@x" none "alice" none [] = ⟨[], [], true⟩
    ∧ ban_all [] ["p@c"] "ghost" none "alice" none []
        = ⟨[⟨none, some "ghost", 0, some "alice", none⟩], ["p@c"], false⟩ :=
  ⟨(c3_amended [("admin@conf", [("boss", ⟨"moderator", "admin", some "boss@x/res"⟩)])]
      ["p@c"] "boss@x" none "alice" none []).1 (by decide),
   Eq.trans ((c3_amended [] ["p@c"] "ghost" none "alice" none []).2 (by decide)) (by decide)⟩

/-- Classification of one outbound XMPP IQ attempt: success, `IqTimeout`,
or `IqError` (rejection). -/
inductive Res where
  | ok
  | timeout
  | rejected
deriving DecidableEq, Repr

/-- One outbound MUC mutation issued by the enforcement code. -/
inductive Act where
  | setAffiliation (room : String) (jid : String) (affiliation : String)
  | setRole (room : String) (nick : String) (role : String)
deriving DecidableEq, Repr

/-- Attempts performed by the ban-path retry loop `for attempt in range(b)`
that breaks on success, breaks on `IqError`, and retries on `IqTimeout`;
`f i` classifies the i-th attempt. -/
def banRetryAttempts : Nat → (Nat → Res) → Nat
  | 0, _ => 0
  | b + 1, f =>
    match f 0 with
    | Res.timeout => banRetryAttempts b (fun i => f (i + 1)) + 1
    | _ => 1

/-- Attempts and escape flag of the unban-path retry loop that catches only
`IqTimeout`: an `IqError` terminates the loop by propagating (second
component true). -/
def unbanRetryAttempts : Nat → (Nat → Res) → Nat × Bool
  | 0, _ => (0, false)
  | b + 1, f =>
    match f 0 with
    | Res.ok => (1, false)
    | Res.rejected => (1, true)
    | Res.timeout =>
      let p := unbanRetryAttempts b (fun i => f (i + 1))
      (p.1 + 1, p.2)

/-- The per-occupant match test of `apply_ban_to_room`'s kick step:
`(ban_jid_bare and jid_in_room and bare(jid_in_room) == ban_jid_bare) or
 (ban_nick and nick.lower() == ban_nick.lower())`. -/
def kickMatchBan (bjb bn : Option String) (n : String) (info : OccInfo) : Bool :=
  (truthy bjb && truthy info.jid && decide (pyBareJid info.jid = bjb))
    || (truthy bn && decide (bn.map lowerStr = some (lowerStr n)))

/-- `apply_ban_to_room` as a trace of outbound actions, each paired with the
number of attempts its retry loop performs under `oracle`.  Step 1 sets the
outcast affiliation when a bare jid is known (3-attempt loop); step 2 kicks
every matching occupant that is not owner/admin (3-attempt loop each); step 3
is the best-effort nick-only kick, a single attempt with every failure
swallowed.  No step aborts any other. -/
def applyBanTrace (oracle : Act → Nat → Res) (room : String) (occ : Occupants)
    (ban_jid bn : Option String) : List (Act × Nat) :=
  let bjb := pyBareJid ban_jid
  (match bjb with
    | some b =>
      if b ≠ "" then
        [(Act.setAffiliation room b "outcast",
          banRetryAttempts 3 (oracle (Act.setAffiliation room b "outcast")))]
      else []
    | none => [])
  ++ occ.filterMap (fun p =>
      if kickMatchBan bjb bn p.1 p.2 then
        if isAdminAff p.2.affiliation then none
        else some (Act.setRole room p.1 "none",
          banRetryAttempts 3 (oracle (Act.setRole room p.1 "none")))
      else none)
  ++ (match bn with
    | some x =>
      if x ≠ "" ∧ occ.all (fun p => p.1 ≠ x) then [(Act.setRole room x "none", 1)]
      else []
    | none => [])

/-- The per-occupant match test of `apply_unban_to_room`'s restore step:
note `ban_nick` is compared as stored, only the occupant nick is lowered. -/
def unbanKickMatch (bj bn : Option String) (n : String) (info : OccInfo) : Bool :=
  (truthy bj && truthy info.jid && decide (pyBareJid info.jid = pyBareJid bj))
    || (truthy bn && decide (some (lowerStr n) = bn))

/-- Role restores performed by `apply_unban_to_room` over the matching
occupants in order: each is a 2-attempt timeout-only loop, and an `IqError`
propagates to the surrounding handler, aborting the remaining restores. -/
def runRestores (oRes : Nat → Nat → Res) : Nat → List String → List (String × Nat) × Bool
  | _, [] => ([], false)
  | k, n :: rest =>
    let p := unbanRetryAttempts 2 (oRes k)
    if p.2 then ([(n, p.1)], true)
    else
      let q := runRestores oRes (k + 1) rest
      ((n, p.1) :: q.1, q.2)

/-- Trace of one `apply_unban_to_room` call: attempts of the affiliation
clear, per-occupant restore attempts, and whether an `IqError` escaped to the
outer handler (aborting the rest of the call for this room). -/
structure UnbanTrace where
  affAttempts : Nat
  restoreAttempts : List (String × Nat)
  abortedEarly : Bool
deriving DecidableEq, Repr

/-- `apply_unban_to_room` from muc_banbot.py as an attempt trace.  The
affiliation clear runs a 3-attempt loop catching only `IqTimeout`; an
`IqError` there escapes to the outer `except (IqError, IqTimeout)` and skips
every restore.  Restores run 2-attempt loops with the same escape. -/
def apply_unban_to_room (bj bn : Option String) (occ : Occupants)
    (oAff : Nat → Res) (oRes : Nat → Nat → Res) : UnbanTrace :=
  let matching := (occ.filter (fun q => unbanKickMatch bj bn q.1 q.2)).map Prod.fst
  if truthy bj then
    let p := unbanRetryAttempts 3 oAff
    if p.2 then ⟨p.1, [], true⟩
    else
      let r := runRestores oRes 0 matching
      ⟨p.1, r.1, r.2⟩
  else
    let r := runRestores oRes 0 matching
    ⟨0, r.1, r.2⟩

/-- Helper: in an association list with distinct keys, a key determines its
value. -/
theorem assoc_value_eq {α β : Type} {l : List (α × β)} (h : (l.map Prod.fst).Nodup)
    {a : α} {b c : β} (h1 : (a, b) ∈ l) (h2 : (a, c) ∈ l) : b = c := by
  induction l with
  | nil => cases h1
  | cons hd tl ih =>
    rw [List.map_cons, List.nodup_cons] at h
    obtain ⟨hnotin, hnd⟩ := h
    rcases List.mem_cons.mp h1 with h1 | h1 <;> rcases List.mem_cons.mp h2 with h2 | h2
    · rw [← h1] at h2; exact (congrArg Prod.snd h2).symm
    · exfalso; apply hnotin; rw [← h1]; exact List.mem_map.mpr ⟨(a, c), h2, rfl⟩
    · exfalso; apply hnotin; rw [← h2]; exact List.mem_map.mpr ⟨(a, b), h1, rfl⟩
    · exact ih hnd h1 h2

/-- Claim C2 counterexample: in a room where an admin occupant matches the
ban's identity, `apply_ban_to_room` still issues the outcast set-affiliation
and still kicks the other matching occupant "mallory" (only the admin's own
kick is skipped), so the claimed whole-room refusal — no outcast set and no
role downgraded for anyone — does not exist in the code. -/
theorem c2_counterexample :
    applyBanTrace (fun _ _ => Res.ok) "room@c"
        [("boss", ⟨"moderator", "admin", some "boss@x/res"⟩),
         ("mallory", ⟨"participant", "member", some "boss@x/other"⟩)]
        (some "boss@x") none
      = [(Act.setAffiliation "room@c" "boss@x" "outcast", 1),
         (Act.setRole "room@c" "mallory" "none", 1)]
    ∧ Act.setRole "room@c" "mallory" "none" ∈ (applyBanTrace (fun _ _ => Res.ok) "room@c"
        [("boss", ⟨"moderator", "admin", some "boss@x/res"⟩),
         ("mallory", ⟨"participant", "member", some "boss@x/other"⟩)]
        (some "boss@x") none).map Prod.fst
    ∧ ¬ (applyBanTrace (fun _ _ => Res.ok) "room@c"
        [("boss", ⟨"moderator", "admin", some "boss@x/res"⟩),
         ("mallory", ⟨"participant", "member", some "boss@x/other"⟩)]
        (some "boss@x") none).map Prod.fst = [] := by
  decide

/-- Claim C2 (amended): `apply_ban_to_room` never emits a role downgrade for a
matching occupant whose affiliation is owner or admin (they are skipped
individually in the kick step), but there is no room-wide refusal: when a bare
jid is known the outcast set-affiliation action is issued regardless, and
kicks of other matching occupants proceed. -/
theorem c2_amended (oracle : Act → Nat → Res) (room : String) (occ : Occupants)
    (bj bn : Option String) (hnd : (occ.map Prod.fst).Nodup)
    (n : String) (info : OccInfo) (hmem : (n, info) ∈ occ)
    (hadm : isAdminAff info.affiliation = true) :
    Act.setRole room n "none" ∉ (applyBanTrace oracle room occ bj bn).map Prod.fst
    ∧ (∀ b, pyBareJid bj = some b → b ≠ "" →
        Act.setAffiliation room b "outcast" ∈ (applyBanTrace oracle room occ bj bn).map
          Prod.fst)
    ∧ (∀ n2 info2, (n2, info2) ∈ occ →
        kickMatchBan (pyBareJid bj) bn n2 info2 = true →
        isAdminAff info2.affiliation = false →
        Act.setRole room n2 "none" ∈ (applyBanTrace oracle room occ bj bn).map
          Prod.fst) := by
  refine ⟨?_, ?_, ?_⟩
  · intro hin
    simp only [applyBanTrace, List.map_append, List.mem_append] at hin
    rcases hin with (h1 | h2) | h3
    · rcases hb : pyBareJid bj with _ | b <;> rw [hb] at h1
      · simp at h1
      · by_cases hbe : b = "" <;> simp [hbe] at h1
    · rcases List.mem_map.mp h2 with ⟨x, hx, hfst⟩
      rcases List.mem_filterMap.mp hx with ⟨p, hp, hpe⟩
      by_cases hk : kickMatchBan (pyBareJid bj) bn p.1 p.2
      · rw [if_pos hk] at hpe
        by_cases ha : isAdminAff p.2.affiliation
        · rw [if_pos ha] at hpe; cases hpe
        · rw [if_neg ha] at hpe
          have hxe := Option.some.inj hpe
          have hx1 : Act.setRole room p.1 "none" = Act.setRole room n "none" := by
            have hc1 := congrArg Prod.fst hxe
            simpa [hfst] using hc1
          have hpn : p.1 = n := by cases hx1; rfl
          have hpi : p.2 = info := by
            have hp2 : (n, p.2) ∈ occ := by rw [← hpn]; exact hp
            exact assoc_value_eq hnd hp2 hmem
          rw [hpi] at ha
          exact ha hadm
      · rw [if_neg hk] at hpe; cases hpe
    · rcases hbn : bn with _ | x <;> rw [hbn] at h3
      · simp at h3
      · simp at h3
        exact h3.1.2 n info hmem h3.2
  · intro b hb hbe
    simp only [applyBanTrace, List.map_append, List.mem_append, hb]
    left; left
    simp [hbe]
  · intro n2 info2 hm2 hk2 ha2
    simp only [applyBanTrace, List.map_append, List.mem_append]
    left; right
    rw [List.mem_map]
    refine ⟨(Act.setRole room n2 "none",
      banRetryAttempts 3 (oracle (Act.setRole room n2 "none"))), ?_, rfl⟩
    rw [List.mem_filterMap]
    exact ⟨(n2, info2), hm2, by simp [hk2, ha2]⟩

/-- Witness for the amended C2: the admin occupant is never kicked, yet the
outcast set and the kick of the other matching occupant both happen. -/
theorem c2_amended_witness :
    Act.setRole "room@c" "boss" "none" ∉ (applyBanTrace (fun _ _ => Res.ok) "room@c"
        [("boss", ⟨"moderator", "admin", some "boss@x/res"⟩),
         ("mallory", ⟨"participant", "member", some "boss@x/other"⟩)]
        (some "boss@x") none).map Prod.fst
    ∧ Act.setAffiliation "room@c" "boss@x" "outcast"
        ∈ (applyBanTrace (fun _ _ => Res.ok) "room@c"
        [("boss", ⟨"moderator", "admin", some "boss@x/res"⟩),
         ("mallory", ⟨"participant", "member", some "boss@x/other"⟩)]
        (some "boss@x") none).map Prod.fst
    ∧ Act.setRole "room@c" "mallory" "none"
        ∈ (applyBanTrace (fun _ _ => Res.ok) "room@c"
        [("boss", ⟨"moderator", "admin", some "boss@x/res"⟩),
         ("mallory", ⟨"participant", "member", some "boss@x/other"⟩)]
        (some "boss@x") none).map Prod.fst := by
  have h := c2_amended (fun _ _ => Res.ok) "room@c"
    [("boss", ⟨"moderator", "admin", some "boss@x/res"⟩),
     ("mallory", ⟨"participant", "member", some "boss@x/other"⟩)]
    (some "boss@x") none
    (by decide) "boss" ⟨"moderator", "admin", some "boss@x/res"⟩ (by decide) (by decide)
  exact ⟨h.1, h.2.1 "boss@x" (by decide) (by decide),
    h.2.2 "mallory" ⟨"participant", "member", some "boss@x/other"⟩
      (by decide) (by decide) (by decide)⟩

/-- Claim C4 counterexample: the role-restore sub-action of the unban path
runs a 2-attempt loop (`for attempt in range(2)`), so under persistent
timeouts it is attempted twice, not the claimed 3 times. -/
theorem c4_counterexample :
    apply_unban_to_room (some "alice@x") none
        [("alice", ⟨"participant", "member", some "alice@x/r"⟩)]
        (fun _ => Res.timeout) (fun _ _ => Res.timeout)
      = ⟨3, [("alice", 2)], false⟩
    ∧ ¬ (apply_unban_to_room (some "alice@x") none
        [("alice", ⟨"participant", "member", some "alice@x/r"⟩)]
        (fun _ => Res.timeout) (fun _ _ => Res.timeout)).restoreAttempts
      = [("alice", 3)] := by
  decide

/-- Helper: the ban-path retry loop never exceeds its bound. -/
theorem banRetryAttempts_le (b : Nat) : ∀ f, banRetryAttempts b f ≤ b := by
  induction b with
  | zero => intro f; simp [banRetryAttempts]
  | succ b ih =>
    intro f
    rw [banRetryAttempts]
    rcases h : f 0 with _ | _ | _ <;> simp [h]
    exact ih (fun i => f (i + 1))

/-- Claim C4 (amended): in the ban path the affiliation set and each
per-occupant kick run a 3-attempt loop that retries on timeout and stops after
a single rejected attempt without affecting sibling actions, while the
nickname-only fallback kick is attempted exactly once; in the unban path the
affiliation clear retries up to 3 times on timeout but the role restore only
up to 2, and a rejected affiliation clear aborts the remaining unban
sub-actions of that room. -/
theorem c4_amended :
    (∀ f, banRetryAttempts 3 f ≤ 3)
    ∧ (∀ f, (∀ i, f i = Res.timeout) → banRetryAttempts 3 f = 3)
    ∧ (∀ f, f 0 = Res.rejected → banRetryAttempts 3 f = 1)
    ∧ (∀ f, (∀ i, f i = Res.timeout) → unbanRetryAttempts 3 f = (3, false))
    ∧ (∀ f, f 0 = Res.rejected → unbanRetryAttempts 3 f = (1, true))
    ∧ (∀ f, (∀ i, f i = Res.timeout) → unbanRetryAttempts 2 f = (2, false))
    ∧ (∀ (oracle : Act → Nat → Res) room occ (bj : Option String) x, x ≠ "" →
        occ.all (fun p => p.1 ≠ x) = true →
        (Act.setRole room x "none", 1) ∈ applyBanTrace oracle room occ bj (some x))
    ∧ (∀ bj bn occ oAff oRes, truthy bj = true → oAff 0 = Res.rejected →
        (apply_unban_to_room bj bn occ oAff oRes).restoreAttempts = []
        ∧ (apply_unban_to_room bj bn occ oAff oRes).abortedEarly = true) := by
  refine ⟨banRetryAttempts_le 3, ?_, ?_, ?_, ?_, ?_, ?_, ?_⟩
  · intro f h; simp [banRetryAttempts, h]
  · intro f h; simp [banRetryAttempts, h]
  · intro f h; simp [unbanRetryAttempts, h]
  · intro f h; simp [unbanRetryAttempts, h]
  · intro f h; simp [unbanRetryAttempts, h]
  · intro oracle room occ bj x hx hall
    simp only [applyBanTrace, List.mem_append]
    right
    simp [hx, hall]
    intro a b hab
    have := List.all_eq_true.mp hall (a, b) hab
    simpa using this
  · intro bj bn occ oAff oRes hbj h0
    rw [apply_unban_to_room]
    simp [hbj, unbanRetryAttempts, h0]

/-- Witness for the amended C4 at concrete oracles. -/
theorem c4_amended_witness :
    banRetryAttempts 3 (fun _ => Res.timeout) = 3
    ∧ unbanRetryAttempts 2 (fun _ => Res.timeout) = (2, false)
    ∧ (Act.setRole "r@c" "ghost" "none", 1)
        ∈ applyBanTrace (fun _ _ => Res.ok) "r@c" [] none (some "ghost")
    ∧ (apply_unban_to_room (some "a@x") none []
        (fun _ => Res.rejected) (fun _ _ => Res.ok)).restoreAttempts = [] := by
  have h := c4_amended
  exact ⟨h.2.1 _ (fun i => rfl), h.2.2.2.2.2.1 _ (fun i => rfl),
    h.2.2.2.2.2.2.1 (fun _ _ => Res.ok) "r@c" [] none "ghost" (by decide) (by decide),
    (h.2.2.2.2.2.2.2 (some "a@x") none [] (fun _ => Res.rejected) (fun _ _ => Res.ok)
      (by decide) rfl).1⟩

/-- SQL `SELECT ... FROM bans WHERE jid=?`: first row whose jid equals the
identifier exactly (NULL never matches). -/
def findByJid (db : BanDb) (identifier : String) : Option BanRec :=
  db.find? (fun r => r.jid = some identifier)

/-- SQL `SELECT ... FROM bans WHERE LOWER(nick)=?` with the lowercased
identifier as parameter. -/
def findByNickCI (db : BanDb) (identifier : String) : Option BanRec :=
  db.find? (fun r => r.nick.map lowerStr = some (lowerStr identifier))

/-- `bare_jid(jid_db).split("@")[0].lower()`: the local part of a stored jid. -/
def localPart (j : String) : String :=
  String.mk ((upToChar '@' (bareJid j).data).map lowerChar)

/-- The fallback scan of `unban_all`: first row with a truthy jid whose local
part equals the lowercased identifier. -/
def findByLocalPart (db : BanDb) (identifier : String) : Option BanRec :=
  db.find? (fun r => truthy r.jid && decide (r.jid.map localPart = some (lowerStr identifier)))

/-- Python `a or b` on optionals: first non-None value. -/
def firstSome {α : Type} (a b : Option α) : Option α :=
  match a with
  | some x => some x
  | none => b

/-- The row-resolution sequence of `unban_all`: jid lookup only for
identity-shaped input, then nick lookup, then the local-part fallback only for
nickname-shaped input. -/
def resolveRow (db : BanDb) (identifier : String) : Option BanRec :=
  let is_jid := hasAtSign identifier
  let row1 := if is_jid then findByJid db identifier else none
  let row2 := firstSome row1 (findByNickCI db identifier)
  firstSome row2 (if is_jid then none else findByLocalPart db identifier)

/-- The resolution order as the spec words it: identity match, then
case-insensitive nickname match, then local-part fallback, unconditionally. -/
def specResolve (db : BanDb) (identifier : String) : Option BanRec :=
  firstSome (findByJid db identifier)
    (firstSome (findByNickCI db identifier) (findByLocalPart db identifier))

/-- `ban_jid = row[0] if row and row[0] else None`. -/
def unbanBanJid (row : Option BanRec) : Option String :=
  match row with
  | some r => if truthy r.jid then r.jid else none
  | none => none

/-- `ban_nick = row[1] if row and row[1] else (None if ban_jid else identifier.lower())`. -/
def unbanBanNick (row : Option BanRec) (identifier : String) : Option String :=
  match row with
  | some r =>
    if truthy r.nick then r.nick
    else if truthy (unbanBanJid row) then none else some (lowerStr identifier)
  | none => some (lowerStr identifier)

/-- The DELETE issued by `unban_all`: by jid or lowercased nick when a jid is
known, by lowercased nick alone otherwise (a NULL parameter matches nothing). -/
def deleteHit (bj bn : Option String) (r : BanRec) : Bool :=
  match bj with
  | some j =>
    decide (r.jid = some j)
      || (match bn with
          | some nk => decide (r.nick.map lowerStr = some nk)
          | none => false)
  | none =>
    match bn with
    | some nk => decide (r.nick.map lowerStr = some nk)
    | none => false

/-- Outcome of one `unban_all` call: resulting table, rooms handed to
`apply_unban_to_room` in order, and the resolved jid/nick pair. -/
structure UnbanAllResult where
  db : BanDb
  applied : List String
  ban_jid : Option String
  ban_nick : Option String
deriving DecidableEq, Repr

/-- `unban_all` from muc_banbot.py, restricted to its effect on the ban table
and the per-room unban invocations (rooms are always all protected rooms,
found row or not). -/
def unban_all (protectedRooms : List String) (identifier : String) (db : BanDb) :
    UnbanAllResult :=
  if identifier = "" then ⟨db, [], none, none⟩
  else
    let row := resolveRow db identifier
    let bj := unbanBanJid row
    let bn := unbanBanNick row identifier
    ⟨db.filter (fun r => ¬ deleteHit bj bn r), protectedRooms, bj, bn⟩

/-- Helper: `lowerChar` only produces an at-sign from an at-sign. -/
theorem lowerChar_at {c : Char} (h : lowerChar c = '@') : c = '@' := by
  revert h
  unfold lowerChar
  split <;> intro h <;> first | exact h | exact absurd h (by decide)

/-- Helper: characters before the first `stop` differ from `stop`. -/
theorem mem_upToChar {stop : Char} {l : List Char} {c : Char}
    (h : c ∈ upToChar stop l) : c ≠ stop := by
  induction l with
  | nil => cases h
  | cons hd tl ih =>
    rw [upToChar] at h
    by_cases he : hd = stop
    · rw [if_pos he] at h; cases h
    · rw [if_neg he] at h
      rcases List.mem_cons.mp h with h | h
      · rw [h]; exact he
      · exact ih h

/-- Helper: a local part never contains an at-sign. -/
theorem hasAt_localPart (j : String) : hasAtSign (localPart j) = false := by
  simp only [hasAtSign, localPart, List.any_eq_false]
  intro c hc
  rcases List.mem_map.mp hc with ⟨d, hd, he⟩
  simp only [decide_eq_true_eq]
  intro hceq
  exact mem_upToChar hd (lowerChar_at (he.trans hceq))

/-- Helper: lowercasing preserves the presence of an at-sign. -/
theorem hasAt_lowerStr {s : String} (h : hasAtSign s = true) :
    hasAtSign (lowerStr s) = true := by
  simp only [hasAtSign, List.any_eq_true, decide_eq_true_eq] at h ⊢
  rcases h with ⟨c, hc, he⟩
  refine ⟨lowerChar c, List.mem_map_of_mem lowerChar hc, ?_⟩
  rw [he]; rfl

/-- Helper: only an empty string lowercases to the empty string. -/
theorem lowerStr_eq_empty {s : String} (h : lowerStr s = "") : s = "" := by
  have hd : (lowerStr s).data = [] := by rw [h]
  have : s.data.map lowerChar = [] := hd
  rcases List.map_eq_nil_iff.mp this with hnil
  cases s
  simp at hnil
  rw [hnil]

/-- Helper: a nickname-shaped identifier never matches the jid lookup when all
stored jids are identity-shaped. -/
theorem findByJid_none {db : BanDb} {identifier : String}
    (hwfJ : ∀ r ∈ db, ∀ j, r.jid = some j → hasAtSign j = true)
    (hid : hasAtSign identifier = false) : findByJid db identifier = none := by
  cases h : findByJid db identifier with
  | none => rfl
  | some r =>
    exfalso
    have hp := List.find?_some h
    have hm := List.mem_of_find?_eq_some h
    have hp2 : r.jid = some identifier := by simpa using hp
    have := hwfJ r hm identifier hp2
    rw [this] at hid
    cases hid

/-- Helper: an identity-shaped identifier never matches the local-part
fallback. -/
theorem findByLocalPart_none {db : BanDb} {identifier : String}
    (hid : hasAtSign identifier = true) : findByLocalPart db identifier = none := by
  cases h : findByLocalPart db identifier with
  | none => rfl
  | some r =>
    exfalso
    have hp := List.find?_some h
    simp only [Bool.and_eq_true, decide_eq_true_eq] at hp
    rcases hp with ⟨ht, he⟩
    rcases hj : r.jid with _ | j
    · rw [hj] at ht; cases ht
    · rw [hj] at he
      have he2 : localPart j = lowerStr identifier := by simpa using he
      have h1 := hasAt_localPart j
      rw [he2] at h1
      rw [hasAt_lowerStr hid] at h1
      cases h1

/-- Helper: case analysis for `firstSome`. -/
theorem firstSome_eq_some {α : Type} {a b : Option α} {r : α}
    (h : firstSome a b = some r) : a = some r ∨ (a = none ∧ b = some r) := by
  cases a with
  | none => exact Or.inr ⟨rfl, h⟩
  | some x => exact Or.inl h

/-- Helper: a resolved row comes from the table. -/
theorem resolveRow_mem {db : BanDb} {identifier : String} {r : BanRec}
    (h : resolveRow db identifier = some r) : r ∈ db := by
  simp only [resolveRow] at h
  rcases firstSome_eq_some h with h2 | ⟨_, h2⟩
  · rcases firstSome_eq_some h2 with h3 | ⟨_, h3⟩
    · by_cases hj : hasAtSign identifier = true
      · rw [if_pos hj] at h3; exact List.mem_of_find?_eq_some h3
      · rw [if_neg hj] at h3; cases h3
    · exact List.mem_of_find?_eq_some h3
  · by_cases hj : hasAtSign identifier = true
    · rw [if_pos hj] at h2; cases h2
    · rw [if_neg hj] at h2; exact List.mem_of_find?_eq_some h2

/-- Helper: what must hold of a resolved row. -/
theorem resolveRow_pred {db : BanDb} {identifier : String} {r : BanRec}
    (h : resolveRow db identifier = some r) :
    r.jid = some identifier
    ∨ r.nick.map lowerStr = some (lowerStr identifier)
    ∨ (truthy r.jid = true ∧ r.jid.map localPart = some (lowerStr identifier)) := by
  simp only [resolveRow] at h
  rcases firstSome_eq_some h with h2 | ⟨_, h2⟩
  · rcases firstSome_eq_some h2 with h3 | ⟨_, h3⟩
    · by_cases hj : hasAtSign identifier = true
      · rw [if_pos hj] at h3
        exact Or.inl (by simpa using List.find?_some h3)
      · rw [if_neg hj] at h3; cases h3
    · exact Or.inr (Or.inl (by simpa using List.find?_some h3))
  · by_cases hj : hasAtSign identifier = true
    · rw [if_pos hj] at h2; cases h2
    · rw [if_neg hj] at h2
      have hp := List.find?_some h2
      simp only [Bool.and_eq_true, decide_eq_true_eq] at hp
      exact Or.inr (Or.inr hp)

/-- Claim C5: `unban_all` resolves the stored record by exact identity match
first, then case-insensitive nickname match, then the local-part fallback;
under the writer-maintained invariants (stored jids contain an at-sign,
stored nicks are lowercase) the resolved record is deleted, and the per-room
unban is invoked for every protected room whether or not a record was found. -/
theorem c5_unban_resolution (db : BanDb) (protectedRooms : List String)
    (identifier : String) (hid : identifier ≠ "")
    (hwfJ : ∀ r ∈ db, ∀ j, r.jid = some j → hasAtSign j = true)
    (hwfN : ∀ r ∈ db, ∀ nk, r.nick = some nk → lowerStr nk = nk) :
    resolveRow db identifier = specResolve db identifier
    ∧ (∀ r, resolveRow db identifier = some r →
        r ∉ (unban_all protectedRooms identifier db).db)
    ∧ (unban_all protectedRooms identifier db).applied = protectedRooms := by
  refine ⟨?_, ?_, by simp [unban_all, hid]⟩
  · by_cases hj : hasAtSign identifier = true
    · have hlp := @findByLocalPart_none db identifier hj
      simp only [resolveRow, specResolve, hj, if_true, if_false, hlp]
      cases findByJid db identifier <;> cases findByNickCI db identifier <;> rfl
    · have hjf : hasAtSign identifier = false := by
        revert hj; cases hasAtSign identifier <;> simp
      have hbj := findByJid_none hwfJ hjf
      simp only [resolveRow, specResolve, hjf, Bool.false_eq_true, if_false, hbj]
      cases findByNickCI db identifier <;> cases findByLocalPart db identifier <;> rfl
  · intro r hrow hmem2
    have hmem := resolveRow_mem hrow
    have hdel : deleteHit (unbanBanJid (resolveRow db identifier))
        (unbanBanNick (resolveRow db identifier) identifier) r = true := by
      rw [hrow]
      rcases hjid : r.jid with _ | j
      · -- no stored jid: the row must have been nick-resolved
        have hbjf : truthy r.jid = false := by rw [hjid]; rfl
        rcases hnick : r.nick with _ | nk
        · -- neither jid nor nick: unreachable for a resolved row
          exfalso
          rcases resolveRow_pred hrow with hp | hp | hp
          · rw [hjid] at hp; cases hp
          · rw [hnick] at hp; cases hp
          · rw [hbjf] at hp; cases hp.1
        · by_cases hne : nk = ""
          · -- empty nick cannot be resolved for a non-empty identifier
            exfalso
            rcases resolveRow_pred hrow with hp | hp | hp
            · rw [hjid] at hp; cases hp
            · rw [hnick, hne] at hp
              have h1 : lowerStr "" = lowerStr identifier := by simpa using hp
              have h3 : lowerStr "" = "" := by decide
              exact hid (lowerStr_eq_empty (h1.symm.trans h3))
            · rw [hjid] at hp; cases hp.1
          · -- truthy nick: deleted via the nick disjunct
            have hbn : unbanBanNick (resolveRow db identifier) identifier = some nk := by
              rw [hrow]
              simp [unbanBanNick, unbanBanJid, hjid, hnick, truthy, hne]
            have hbj : unbanBanJid (resolveRow db identifier) = none := by
              rw [hrow]; simp only [unbanBanJid]; rw [hjid]; rfl
            rw [← hrow, hbj, hbn]
            simp only [deleteHit]
            rw [hnick]
            simp [hwfN r hmem nk hnick]
      · -- stored jid: truthy by the at-sign invariant, deleted via the jid disjunct
        have hat := hwfJ r hmem j hjid
        have hne : j ≠ "" := by
          intro he; rw [he] at hat; cases hat
        have hbj : unbanBanJid (resolveRow db identifier) = some j := by
          rw [hrow]
          simp only [unbanBanJid]
          rw [hjid]
          simp [truthy, hne]
        rw [← hrow, hbj]
        simp only [deleteHit]
        rw [hjid]
        simp
    have hco : r ∈ db ∧ deleteHit (unbanBanJid (resolveRow db identifier))
        (unbanBanNick (resolveRow db identifier) identifier) r = false := by
      simpa [unban_all, hid] using hmem2
    have h5 := hco.2
    rw [hdel] at h5
    cases h5

/-- Witness for C5 at a concrete one-row table. -/
theorem c5_unban_resolution_witness :
    resolveRow [⟨some "user@x", some "bob", 0, some "alice", none⟩] "user@x"
      = specResolve [⟨some "user@x", some "bob", 0, some "alice", none⟩] "user@x"
    ∧ (unban_all ["p@c"] "user@x"
        [⟨some "user@x", some "bob", 0, some "alice", none⟩]).applied = ["p@c"]
    ∧ (⟨some "user@x", some "bob", 0, some "alice", none⟩ : BanRec)
        ∉ (unban_all ["p@c"] "user@x"
            [⟨some "user@x", some "bob", 0, some "alice", none⟩]).db := by
  have h := c5_unban_resolution [⟨some "user@x", some "bob", 0, some "alice", none⟩]
    ["p@c"] "user@x" (by decide)
    (by
      intro r hr j hj
      rw [List.mem_singleton] at hr
      subst hr
      cases Option.some.inj hj
      decide)
    (by
      intro r hr nk hn
      rw [List.mem_singleton] at hr
      subst hr
      cases Option.some.inj hn
      decide)
  exact ⟨h.1, h.2.2, h.2.1 _ (by decide)⟩

/-- The record reconciliation inserts for an orphan outcast: permanent,
nickless, tagged with the sync issuer and a recovered-from-room comment. -/
def recoveredRec (tag : String) (j : String) : BanRec :=
  ⟨some j, none, 0, some tag, some "Recovered from room"⟩

/-- The orphan-adoption loop shared by `sync_bans_to_rooms` and
`sync_bans_to_rooms_for_single_room`: walk one room's bare outcast jids and
append a recovered record for each one no stored ban covers (the freshly
appended records are visible to later iterations, as in the source's
`db_bans.append`). -/
def adoptOrphans (tag : String) (db : BanDb) (outsBare : List String) : BanDb :=
  match outsBare with
  | [] => db
  | j :: rest =>
    if db.any (fun r => truthy r.jid && decide (pyBareJid r.jid = some j)) then
      adoptOrphans tag db rest
    else adoptOrphans tag (db ++ [recoveredRec tag j]) rest

/-- `sync_bans_to_rooms` restricted to its effect on the ban table: each
protected room's outcast list is adopted in turn (rooms share the growing
`db_bans` list). -/
def syncAdoptAll (tag : String) (db : BanDb) (roomOuts : List (List String)) : BanDb :=
  roomOuts.foldl (fun acc outs => adoptOrphans tag acc outs) db

/-- `n.lower() == nick.lower()` guarded by nick truthiness. -/
def nickMatches (n : String) : Option String → Bool
  | some nk => if nk = "" then false else decide (lowerStr n = lowerStr nk)
  | none => false

/-- `jid and info.get("jid") and bare_jid(info["jid"]) == bare_jid(jid)`. -/
def jidMatchesInfo (info : OccInfo) : Option String → Bool
  | none => false
  | some j =>
    if j = "" then false
    else
      match pyBareJid info.jid with
      | some a => decide (a = bareJid j)
      | none => false

/-- `BanBot.is_admin_or_owner`: the first occupant matching by nick
(case-insensitive) or by bare jid decides, returning whether that occupant
holds owner or admin affiliation. -/
def is_admin_or_owner : Occupants → Option String → Option String → Bool
  | [], _, _ => false
  | (n, info) :: rest, nick, jid =>
    if nickMatches n nick then isAdminAff info.affiliation
    else if jidMatchesInfo info jid then isAdminAff info.affiliation
    else is_admin_or_owner rest nick jid

/-- Python dict upsert on an occupant map: update in place, else append. -/
def upsertOcc (occ : Occupants) (n : String) (i : OccInfo) : Occupants :=
  match occ with
  | [] => [(n, i)]
  | (n0, i0) :: rest =>
    if n0 = n then (n0, i) :: rest else (n0, i0) :: upsertOcc rest n i

/-- `self.occupants.setdefault(room, {})[nick] = info`. -/
def upsertRoom (rm : RoomMap) (room n : String) (i : OccInfo) : RoomMap :=
  match rm with
  | [] => [(room, upsertOcc [] n i)]
  | (r0, occ0) :: rest =>
    if r0 = room then (r0, upsertOcc occ0 n i) :: rest
    else (r0, occ0) :: upsertRoom rest room n i

/-- `self.occupants.get(room, {})`. -/
def occupantsOf (rm : RoomMap) (room : String) : Occupants :=
  match rm with
  | [] => []
  | (r0, occ0) :: rest => if r0 = room then occ0 else occupantsOf rest room

/-- The per-ban match test of `muc_online`:
`match_jid or match_nick` from lines 257-258. -/
def banMatchesJoiner (r : BanRec) (nick : String) (jid_str : Option String) : Bool :=
  (truthy r.jid && truthy jid_str && decide (pyBareJid jid_str = pyBareJid r.jid))
    || (truthy r.nick && decide (r.nick.map lowerStr = some (lowerStr nick)))

/-- The task-collection loop of `muc_online`: skip expired temporary bans,
keep every ban matching the joiner. -/
def collectBanTasks (bans : BanDb) (now : Int) (nick : String) (jid_str : Option String) :
    List BanRec :=
  match bans with
  | [] => []
  | r :: rest =>
    if 0 < r.untilTs ∧ r.untilTs ≤ now then collectBanTasks rest now nick jid_str
    else if banMatchesJoiner r nick jid_str then r :: collectBanTasks rest now nick jid_str
    else collectBanTasks rest now nick jid_str

/-- `muc_online` from muc_banbot.py: upsert the occupant, return early for
admins/owners, otherwise gather the per-room enforcement tasks. -/
def muc_online (rm : RoomMap) (db : BanDb) (now : Int) (room nick : String)
    (jid_str : Option String) (role affiliation : String) : RoomMap × List BanRec :=
  let rm2 := upsertRoom rm room nick ⟨role, affiliation, jid_str⟩
  if is_admin_or_owner (occupantsOf rm2 room) (some nick) jid_str then (rm2, [])
  else (rm2, collectBanTasks db now nick jid_str)

/-- SQL `SELECT jid, nick FROM bans WHERE until > 0 AND until <= now`. -/
def expiredSelect (db : BanDb) (now : Int) : BanDb :=
  db.filter (fun r => 0 < r.untilTs ∧ r.untilTs ≤ now)

/-- `identifier = self.bare_jid(ban_jid) if ban_jid else ban_nick`. -/
def identifierOfExpired (r : BanRec) : Option String :=
  if truthy r.jid then pyBareJid r.jid else r.nick

/-- One tick's environment for the expiry worker: table contents, clock, and
whether something in the tick body raises. -/
structure TickEnv where
  db : BanDb
  now : Int
  fails : Bool
deriving DecidableEq, Repr

/-- The unban invocations one `unban_worker` tick issues: none when the tick
raises (the exception is caught and logged), otherwise one `unban_all` call
with issuer "system" per expired record. -/
def tickInvocations (e : TickEnv) : List (Option String × String) :=
  if e.fails then []
  else (expiredSelect e.db e.now).map (fun r => (identifierOfExpired r, "system"))

/-- The first `n` iterations of `unban_worker`'s infinite `while True` loop:
the loop body is total (every exception is caught), so iteration `i` always
happens and contributes its tick's invocations. -/
def runWorker (env : Nat → TickEnv) : Nat → List (List (Option String × String))
  | 0 => []
  | n + 1 => runWorker env n ++ [tickInvocations (env n)]

/-- Helper: orphan adoption only appends recovered records. -/
theorem adoptOrphans_additive (tag : String) (outs : List String) :
    ∀ db, ∃ added, adoptOrphans tag db outs = db ++ added
      ∧ ∀ r ∈ added, ∃ j ∈ outs, r = recoveredRec tag j := by
  induction outs with
  | nil => intro db; exact ⟨[], by simp [adoptOrphans], by simp⟩
  | cons j rest ih =>
    intro db
    rw [adoptOrphans]
    by_cases h : db.any (fun r => truthy r.jid && decide (pyBareJid r.jid = some j)) = true
    · rw [if_pos h]
      rcases ih db with ⟨added, he, hsh⟩
      refine ⟨added, he, fun r hr => ?_⟩
      rcases hsh r hr with ⟨j2, hj2, he2⟩
      exact ⟨j2, List.mem_cons_of_mem j hj2, he2⟩
    · rw [if_neg h]
      rcases ih (db ++ [recoveredRec tag j]) with ⟨added, he, hsh⟩
      refine ⟨recoveredRec tag j :: added, ?_, ?_⟩
      · rw [he]; simp
      · intro r hr
        rcases List.mem_cons.mp hr with hr | hr
        · exact ⟨j, List.mem_cons_self j rest, hr⟩
        · rcases hsh r hr with ⟨j2, hj2, he2⟩
          exact ⟨j2, List.mem_cons_of_mem j hj2, he2⟩

/-- Claim C6: reconciliation never deletes or modifies an existing ban-table
record — the table before the run is an unchanged initial segment of the table
after — and every inserted record is a permanent, nickless record for one of
some room's outcast jids, tagged with the sync issuer and the
recovered-from-room comment. -/
theorem c6_sync_additive (tag : String) (db : BanDb) (roomOuts : List (List String)) :
    ∃ added, syncAdoptAll tag db roomOuts = db ++ added
      ∧ ∀ r ∈ added,
          r.nick = none ∧ r.untilTs = 0 ∧ r.issuer = some tag
          ∧ r.comment = some "Recovered from room"
          ∧ ∃ outs ∈ roomOuts, ∃ j ∈ outs, r.jid = some j := by
  suffices h : ∀ db2, ∃ added, syncAdoptAll tag db2 roomOuts = db2 ++ added
      ∧ ∀ r ∈ added, ∃ outs ∈ roomOuts, ∃ j ∈ outs, r = recoveredRec tag j by
    rcases h db with ⟨added, he, hsh⟩
    refine ⟨added, he, fun r hr => ?_⟩
    rcases hsh r hr with ⟨outs, ho, j, hj, he2⟩
    subst he2
    exact ⟨rfl, rfl, rfl, rfl, outs, ho, j, hj, rfl⟩
  induction roomOuts with
  | nil => intro db2; exact ⟨[], by simp [syncAdoptAll], by simp⟩
  | cons outs rest ih =>
    intro db2
    rcases adoptOrphans_additive tag outs db2 with ⟨a1, he1, hs1⟩
    rcases ih (db2 ++ a1) with ⟨a2, he2, hs2⟩
    refine ⟨a1 ++ a2, ?_, ?_⟩
    · have hstep : syncAdoptAll tag db2 (outs :: rest)
          = syncAdoptAll tag (adoptOrphans tag db2 outs) rest := by
        simp [syncAdoptAll]
      rw [hstep, he1, he2, List.append_assoc]
    · intro r hr
      rcases List.mem_append.mp hr with hr | hr
      · rcases hs1 r hr with ⟨j, hj, hej⟩
        exact ⟨outs, List.mem_cons_self _ _, j, hj, hej⟩
      · rcases hs2 r hr with ⟨o2, ho2, j, hj, hej⟩
        exact ⟨o2, List.mem_cons_of_mem _ ho2, j, hj, hej⟩

/-- Witness for C6 at a concrete room with one orphan outcast. -/
theorem c6_sync_additive_witness :
    ∃ added, syncAdoptAll "sync" [] [["u@x"]] = [] ++ added
      ∧ ∀ r ∈ added,
          r.nick = none ∧ r.untilTs = 0 ∧ r.issuer = some "sync"
          ∧ r.comment = some "Recovered from room"
          ∧ ∃ outs ∈ [["u@x"]], ∃ j ∈ outs, r.jid = some j :=
  c6_sync_additive "sync" [] [["u@x"]]

/-- Helper: upserting an occupant commutes with the room lookup. -/
theorem occupantsOf_upsertRoom (rm : RoomMap) (room n : String) (i : OccInfo) :
    occupantsOf (upsertRoom rm room n i) room = upsertOcc (occupantsOf rm room) n i := by
  induction rm with
  | nil => simp [upsertRoom, occupantsOf]
  | cons hd rest ih =>
    rcases hd with ⟨r0, occ0⟩
    rw [upsertRoom]
    by_cases h : r0 = room
    · rw [if_pos h]; simp [occupantsOf, h]
    · rw [if_neg h]; simp [occupantsOf, h, ih]

/-- Helper: the task-collection loop keeps exactly the active matching bans. -/
theorem collectBanTasks_eq_filter (bans : BanDb) (now : Int) (nick : String)
    (jid_str : Option String) :
    collectBanTasks bans now nick jid_str
      = bans.filter (fun r =>
          ¬(0 < r.untilTs ∧ r.untilTs ≤ now) ∧ banMatchesJoiner r nick jid_str) := by
  induction bans with
  | nil => rfl
  | cons r rest ih =>
    rw [collectBanTasks]
    by_cases h1 : 0 < r.untilTs ∧ r.untilTs ≤ now
    · rw [if_pos h1, ih, List.filter_cons]; simp [h1]
    · rw [if_neg h1]
      by_cases h2 : banMatchesJoiner r nick jid_str = true
      · rw [if_pos h2, ih, List.filter_cons]; simp [h1, h2]
      · rw [if_neg h2, ih, List.filter_cons]; simp [h1, h2]

/-- Claim C7 counterexample: an owner/admin joiner can still trigger
enforcement.  The room already holds an occupant "Alice" with member
affiliation; a joiner "alice" whose presence affiliation is "admin" is then
upserted, but `is_admin_or_owner` is a first-match scan: the earlier
case-colliding nick "Alice" decides, reports member, and the matching
nickname ban fires against the admin joiner — refuting "owner/admin joiners
trigger no enforcement". -/
theorem c7_counterexample :
    (muc_online [("room@c", [("Alice", ⟨"participant", "member", some "other@y/r"⟩)])]
        [⟨none, some "alice", 0, some "bob", none⟩] 0
        "room@c" "alice" (some "admin@x/r") "moderator" "admin").2
      = [⟨none, some "alice", 0, some "bob", none⟩]
    ∧ ¬ (muc_online [("room@c", [("Alice", ⟨"participant", "member", some "other@y/r"⟩)])]
        [⟨none, some "alice", 0, some "bob", none⟩] 0
        "room@c" "alice" (some "admin@x/r") "moderator" "admin").2 = [] := by
  decide

/-- Claim C7 (amended): a join upserts the occupant into the room's map;
enforcement is skipped exactly when the code's `is_admin_or_owner` first-match
scan over the updated map flags the joiner (the first occupant matching the
joiner's nick case-insensitively or bare jid decides — the joiner's own
presence affiliation only when no earlier occupant's nick collides);
otherwise exactly the stored bans that are not expired temporary bans and
match the joiner by bare identity or case-insensitive nickname trigger the
per-room enforcement — in particular a nickname-only ban fires the moment an
occupant joins with that nickname. -/
theorem c7_muc_online (rm : RoomMap) (db : BanDb) (now : Int) (room nick : String)
    (jid_str : Option String) (role affiliation : String) :
    occupantsOf (muc_online rm db now room nick jid_str role affiliation).1 room
      = upsertOcc (occupantsOf rm room) nick ⟨role, affiliation, jid_str⟩
    ∧ (is_admin_or_owner
          (occupantsOf (muc_online rm db now room nick jid_str role affiliation).1 room)
          (some nick) jid_str = true →
        (muc_online rm db now room nick jid_str role affiliation).2 = [])
    ∧ (is_admin_or_owner
          (occupantsOf (muc_online rm db now room nick jid_str role affiliation).1 room)
          (some nick) jid_str = false →
        (muc_online rm db now room nick jid_str role affiliation).2
          = db.filter (fun r =>
              ¬(0 < r.untilTs ∧ r.untilTs ≤ now) ∧ banMatchesJoiner r nick jid_str))
    ∧ (∀ r ∈ db, r.jid = none → ∀ bn, r.nick = some bn → bn ≠ "" →
        lowerStr nick = lowerStr bn → ¬(0 < r.untilTs ∧ r.untilTs ≤ now) →
        is_admin_or_owner
          (occupantsOf (muc_online rm db now room nick jid_str role affiliation).1 room)
          (some nick) jid_str = false →
        r ∈ (muc_online rm db now room nick jid_str role affiliation).2) := by
  have hup : (muc_online rm db now room nick jid_str role affiliation).1
      = upsertRoom rm room nick ⟨role, affiliation, jid_str⟩ := by
    simp only [muc_online]
    split <;> rfl
  have hocc : occupantsOf (muc_online rm db now room nick jid_str role affiliation).1 room
      = upsertOcc (occupantsOf rm room) nick ⟨role, affiliation, jid_str⟩ := by
    rw [hup, occupantsOf_upsertRoom]
  have h3 : is_admin_or_owner
        (occupantsOf (upsertRoom rm room nick ⟨role, affiliation, jid_str⟩) room)
        (some nick) jid_str = false →
      (muc_online rm db now room nick jid_str role affiliation).2
        = db.filter (fun r =>
            ¬(0 < r.untilTs ∧ r.untilTs ≤ now) ∧ banMatchesJoiner r nick jid_str) := by
    intro hf
    simp [muc_online, hf, collectBanTasks_eq_filter]
  refine ⟨hocc, ?_, ?_, ?_⟩
  · intro h
    rw [hup] at h
    simp [muc_online, h]
  · intro h
    rw [hup] at h
    exact h3 h
  · intro r hr hj bn hn hne hml hexp hadm
    rw [hup] at hadm
    rw [h3 hadm, List.mem_filter]
    refine ⟨hr, ?_⟩
    simp [banMatchesJoiner, hj, hn, truthy, hne, hml, hexp]

/-- Helper: the worker performs every tick. -/
theorem runWorker_length (env : Nat → TickEnv) (n : Nat) :
    (runWorker env n).length = n := by
  induction n with
  | zero => rfl
  | succ n ih => simp [runWorker, ih]

/-- Claim C8: every worker iteration happens regardless of earlier tick
failures (a raised exception is caught and the loop continues), iteration `i`
contributes exactly its tick's invocations, a non-failing tick invokes
`unban_all` with issuer "system" once per selected record, and the selection
is exactly the records with `until > 0` and `until ≤ now`. -/
theorem c8_unban_worker (env : Nat → TickEnv) (n : Nat) :
    (runWorker env n).length = n
    ∧ (∀ i, i < n → (runWorker env n).getD i [] = tickInvocations (env i))
    ∧ (∀ e : TickEnv, e.fails = false →
        tickInvocations e = (expiredSelect e.db e.now).map
          (fun r => (identifierOfExpired r, "system")))
    ∧ (∀ (db : BanDb) (now : Int) (r : BanRec),
        r ∈ expiredSelect db now ↔ r ∈ db ∧ 0 < r.untilTs ∧ r.untilTs ≤ now)
    ∧ (∀ e : TickEnv, ∀ x ∈ tickInvocations e, x.2 = "system") := by
  refine ⟨runWorker_length env n, ?_, ?_, ?_, ?_⟩
  · induction n with
    | zero => intro i hi; omega
    | succ n ih =>
      intro i hi
      rw [runWorker]
      by_cases h : i < n
      · rw [List.getD_append]
        · exact ih i h
        · rw [runWorker_length]; exact h
      · have hieq : i = n := by omega
        subst hieq
        rw [List.getD_append_right]
        · rw [runWorker_length]; simp
        · rw [runWorker_length]
  · intro e he
    simp [tickInvocations, he]
  · intro db now r
    simp [expiredSelect, List.mem_filter]
  · intro e x hx
    simp only [tickInvocations] at hx
    by_cases h : e.fails = true
    · rw [if_pos h] at hx; cases hx
    · rw [if_neg h] at hx
      rcases List.mem_map.mp hx with ⟨r, _, he⟩
      rw [← he]

/-- Witness for C7: a nickname-only ban fires when "ghost" joins. -/
theorem c7_muc_online_witness :
    (⟨none, some "ghost", 3600, some "bob", none⟩ : BanRec)
      ∈ (muc_online [] [⟨none, some "ghost", 3600, some "bob", none⟩] 0
          "room@c" "ghost" (some "g@x/r") "participant" "none").2
    ∧ occupantsOf (muc_online [] [⟨none, some "ghost", 3600, some "bob", none⟩] 0
          "room@c" "ghost" (some "g@x/r") "participant" "none").1 "room@c"
        = upsertOcc (occupantsOf [] "room@c") "ghost" ⟨"participant", "none", some "g@x/r"⟩ := by
  have h := c7_muc_online [] [⟨none, some "ghost", 3600, some "bob", none⟩] 0
    "room@c" "ghost" (some "g@x/r") "participant" "none"
  refine ⟨?_, h.1⟩
  exact h.2.2.2 ⟨none, some "ghost", 3600, some "bob", none⟩ (by decide) rfl "ghost" rfl
    (by decide) rfl (by decide) (by decide)

/-- Witness for C8: two ticks, the second failing, both recorded. -/
theorem c8_unban_worker_witness :
    (runWorker (fun i => if i = 0
        then ⟨[⟨some "u@x", none, 5, some "a", none⟩], 10, false⟩
        else ⟨[], 0, true⟩) 2).length = 2
    ∧ (runWorker (fun i => if i = 0
        then ⟨[⟨some "u@x", none, 5, some "a", none⟩], 10, false⟩
        else ⟨[], 0, true⟩) 2).getD 0 [] = [(some "u@x", "system")] := by
  have h := c8_unban_worker (fun i => if i = 0
      then ⟨[⟨some "u@x", none, 5, some "a", none⟩], 10, false⟩
      else (⟨[], 0, true⟩ : TickEnv)) 2
  exact ⟨h.1, Eq.trans (h.2.1 0 (by omega)) (by decide)⟩
